import Mathlib

/-!
Verification development for the TrendRadar snapshot-merge-and-rank engine and
its notification dispatcher.  Python dictionaries are embedded as
insertion-ordered association lists, Python `set` as a duplicate-free insertion
list, Python `float` arithmetic as exact rationals (ℚ), and Python strings as
Lean `String` (comparison is by code point in both languages).  File and clock
I/O is replaced by explicit parameters: functions that read the day's snapshot
files take the parsed snapshot list as an argument, and functions that read the
clock take the current time string as an argument.
-/

namespace TrendRadar

/-! ### Python dict / set primitives (insertion-ordered association lists) -/

/-- `d[k]` lookup on a Python dict modelled as an association list:
the first binding of the key wins (real dicts have unique keys). -/
def pyGet {α : Type} : List (String × α) → String → Option α
  | [], _ => none
  | (k, v) :: rest, key => if k = key then some v else pyGet rest key

/-- `d[k] = v` on a Python dict: update the binding in place if the key is
present (keeping its position), otherwise append a new binding. -/
def pySet {α : Type} : List (String × α) → String → α → List (String × α)
  | [], key, v => [(key, v)]
  | (k, w) :: rest, key, v =>
      if k = key then (k, v) :: rest else (k, w) :: pySet rest key v

/-- `s.add(t)` on a Python set modelled as a duplicate-free list (only
membership is ever used). -/
def setAdd (s : List String) (t : String) : List String :=
  if t ∈ s then s else s ++ [t]

/-! ### Python string primitives -/

/-- Python `\s` for the ASCII range (the strings this program strips only carry
ASCII whitespace). -/
def pyIsSpace (c : Char) : Bool :=
  c = ' ' || c = '\t' || c = '\n' || c = '\r' || c = '\x0b' || c = '\x0c'

/-- Python `str.strip()`: drop whitespace from both ends. -/
def pyStrip (s : String) : String :=
  ⟨((s.data.dropWhile pyIsSpace).reverse.dropWhile pyIsSpace).reverse⟩

/-- One pass of `re.sub(r"X+", " ", s)`: replace each maximal run of
characters satisfying `p` by a single space.  The flag records whether the
previous character was part of a run. -/
def collapseGo (p : Char → Bool) : Bool → List Char → List Char
  | _, [] => []
  | inRun, c :: rest =>
      if p c then
        if inRun then collapseGo p true rest
        else ' ' :: collapseGo p true rest
      else c :: collapseGo p false rest

/-- `clean_title` (src/utils/file.py): `re.sub(r"[\n\r]+", " ", title)`, then
`re.sub(r"\s+", " ", ...)`, then `.strip()`. -/
def cleanTitle (title : String) : String :=
  let cleaned : List Char := collapseGo (fun c => c = '\n' || c = '\r') false title.data
  pyStrip ⟨collapseGo pyIsSpace false cleaned⟩

/-- Substring test `pat in hay` on character lists (`lzStarts hay pat` is the
prefix test at the current position). -/
def lzStarts : List Char → List Char → Bool
  | _, [] => true
  | [], _ :: _ => false
  | a :: as, b :: bs => a == b && lzStarts as bs

/-- Python `pat in hay` (substring containment). -/
def lzHas : List Char → List Char → Bool
  | [], pat => pat.isEmpty
  | a :: as, pat => lzStarts (a :: as) pat || lzHas as pat

/-- Python `needle in hay` on strings. -/
def strHas (hay needle : String) : Bool :=
  lzHas hay.data needle.data

/-- Python `s.startswith(p)`. -/
def pyStarts (s p : String) : Bool :=
  lzStarts s.data p.data

/-- Strict lexicographic comparison of character lists by code point
(Python string `<`). -/
def lzLt : List Char → List Char → Bool
  | _, [] => false
  | [], _ :: _ => true
  | a :: as, b :: bs => a.toNat < b.toNat || (a == b && lzLt as bs)

/-- Worker for `pySplit`: scan the text, emitting the current piece whenever
the (non-empty) separator matches, else consuming one character.  `fuel` is
an upper bound on the remaining length, so the `0` case is unreachable; it
makes the recursion structural. -/
def pySplitGo (sep : List Char) : Nat → List Char → List Char → List (List Char)
  | _, [], cur => [cur.reverse]
  | 0, _ :: _, cur => [cur.reverse]
  | fuel + 1, c :: rest, cur =>
      if lzStarts (c :: rest) sep then
        cur.reverse :: pySplitGo sep fuel (List.drop (sep.length - 1) rest) []
      else pySplitGo sep fuel rest (c :: cur)

/-- Python `s.split(sep)` for a non-empty separator (Python raises on an
empty one; the program only splits on `"\n\n"`, `"\n"` and `":"`). -/
def pySplit (s sep : String) : List String :=
  if sep = "" then [s]
  else (pySplitGo sep.data s.data.length s.data []).map (fun l => ⟨l⟩)

/-- Python `str.lower()` (ASCII case folding; the CJK characters appearing in
titles are unaffected in both languages). -/
def pyLower (s : String) : String :=
  ⟨s.data.map Char.toLower⟩

/-! ### NewsFilter (src/core/filter.py) -/

/-- One keyword group produced by `NewsFilter._load_frequency_words`. -/
structure WordGroup where
  required : List String
  normal : List String
  group_key : String
  deriving Repr, DecidableEq

/-- Classification of one configuration line inside a group. -/
def classifyWord (acc : List String × List String × List String) (word : String) :
    List String × List String × List String :=
  let (req, norm, filt) := acc
  if pyStarts word "!" then (req, norm, filt ++ [word.drop 1])
  else if pyStarts word "+" then (req ++ [word.drop 1], norm, filt)
  else (req, norm ++ [word], filt)

/-- `NewsFilter._load_frequency_words` (src/core/filter.py) after the file has
been read into `content`: split on blank lines into groups, split each group
into lines, classify `!`-, `+`- and plain lines, and keep a group only when it
has at least one required or normal word.  Returns `(word_groups,
filter_words)`. -/
def loadFrequencyWords (content : String) : List WordGroup × List String :=
  let wordGroups := (pySplit content "\n\n").map pyStrip |>.filter (fun g => g ≠ "")
  wordGroups.foldl
    (fun (acc : List WordGroup × List String) group =>
      let (processedGroups, filterWords) := acc
      let words := (pySplit group "\n").map pyStrip |>.filter (fun w => w ≠ "")
      let (groupRequiredWords, groupNormalWords, groupFilterWords) :=
        words.foldl classifyWord ([], [], [])
      let filterWords := filterWords ++ groupFilterWords
      if groupRequiredWords ≠ [] ∨ groupNormalWords ≠ [] then
        let groupKey :=
          if groupNormalWords ≠ [] then " ".intercalate groupNormalWords
          else " ".intercalate groupRequiredWords
        (processedGroups ++ [⟨groupRequiredWords, groupNormalWords, groupKey⟩], filterWords)
      else (processedGroups, filterWords))
    ([], [])

/-- `NewsFilter.matches` (src/core/filter.py): with no configured word groups
every title matches; otherwise a title containing any filter word is rejected,
and a title is accepted when some group's required words are all present and,
if the group has normal words, at least one is present. -/
def newsFilterMatches (wordGroups : List WordGroup)
    (filterWords : List String) (title : String) : Bool :=
  if wordGroups = [] then true
  else
    let titleLower := pyLower title
    if filterWords.any (fun w => strHas titleLower (pyLower w)) then false
    else
      wordGroups.any (fun group =>
        (group.required.isEmpty || group.required.all (fun w => strHas titleLower (pyLower w))) &&
        (group.normal.isEmpty || group.normal.any (fun w => strHas titleLower (pyLower w))))

/-! ### NewsRanking weight (src/core/ranking.py, `_calculate_weight`) -/

/-- The slice of a `title_data` dict read by `_calculate_weight`:
`ranks` (default `[]` is folded into the plain list) and the optional
`count` key (`title_data.get("count", len(ranks))`). -/
structure WeightInput where
  ranks : List Nat
  count : Option Nat
  deriving Repr, DecidableEq

/-- The scoring coefficients held by `NewsRanking` (`rank_threshold`,
`rank_weight`, `frequency_weight`, `hotness_weight`); Python floats are
embedded as exact rationals. -/
structure RankConfig where
  rank_threshold : Nat
  rank_weight : ℚ
  frequency_weight : ℚ
  hotness_weight : ℚ
  deriving Repr, DecidableEq

/-- The default `NewsRanking` configuration (threshold 10, coefficients
0.6 / 0.3 / 0.1). -/
def defaultRankConfig : RankConfig :=
  ⟨10, 6 / 10, 3 / 10, 1 / 10⟩

/-- `NewsRanking._calculate_weight` (src/core/ranking.py): 0 for empty
`ranks`; otherwise the mean of `11 - min(rank, 10)`, the capped frequency
`min(count, 10) * 10` and the share of ranks at or under the threshold times
100, combined with the configured coefficients. -/
def calculateWeight (cfg : RankConfig) (titleData : WeightInput) : ℚ :=
  let ranks := titleData.ranks
  if ranks = [] then 0
  else
    let count := titleData.count.getD ranks.length
    let rankScores := ranks.map (fun rank => (11 : ℚ) - (min rank 10 : Nat))
    let rankWeightValue := rankScores.sum / ranks.length
    let frequencyWeightValue : ℚ := (min count 10 : Nat) * 10
    let highRankCount := (ranks.filter (fun rank => rank ≤ cfg.rank_threshold)).length
    let hotnessRatio := (highRankCount : ℚ) / ranks.length
    let hotnessWeightValue := hotnessRatio * 100
    rankWeightValue * cfg.rank_weight
      + frequencyWeightValue * cfg.frequency_weight
      + hotnessWeightValue * cfg.hotness_weight

/-- The weight formula exactly as the specification words it:
`w_rank * mean(11 - min(rank, 10)) + w_freq * (min(c, 10) * 10) +
w_hot * (100 * |{rank ∈ ranks : rank ≤ t}| / len(ranks))`. -/
def specWeightFormula (t : Nat) (wRank wFreq wHot : ℚ) (ranks : List Nat) (c : Nat) : ℚ :=
  wRank * ((ranks.map (fun rank => (11 : ℚ) - (min rank 10 : Nat))).sum / ranks.length)
    + wFreq * ((min c 10 : Nat) * 10)
    + wHot * (100 * ((ranks.filter (fun rank => rank ≤ t)).length : ℚ) / ranks.length)

/-! ### PushRecordManager time handling (src/core/push_record.py) -/

/-- Python `int(s)` on the strings fed to `_normalize_time`: strip
whitespace, allow one sign, then decimal digits (the underscore and
non-ASCII-digit forms Python also accepts never occur here). -/
def pyInt (s : String) : Option Int :=
  let t := (pyStrip s).data
  let signed : Int × List Char :=
    match t with
    | '+' :: rest => (1, rest)
    | '-' :: rest => (-1, rest)
    | l => (1, l)
  let (sign, digits) := signed
  if digits ≠ [] ∧ digits.all Char.isDigit then
    some (sign * (digits.foldl (fun n c => 10 * n + (c.toNat - 48)) 0 : Nat))
  else none

/-- Python `f"{n:02d}"` for `0 ≤ n ≤ 99`. -/
def fmt02 (n : Int) : String :=
  if n < 10 then "0" ++ toString n else toString n

/-- `PushRecordManager._normalize_time` (src/core/push_record.py): parse
`HH:MM`, range-check hour and minute, and re-render zero-padded; any
`ValueError` is caught and the original string returned unchanged. -/
def pyNormalizeTime (timeStr : String) : String :=
  match pySplit (pyStrip timeStr) ":" with
  | [h, m] =>
      match pyInt h, pyInt m with
      | some hour, some minute =>
          if 0 ≤ hour ∧ hour ≤ 23 ∧ 0 ≤ minute ∧ minute ≤ 59 then
            fmt02 hour ++ ":" ++ fmt02 minute
          else timeStr
      | _, _ => timeStr
  | _ => timeStr

/-- Python `a <= b` on strings (lexicographic by code point). -/
def pyStrLe (a b : String) : Bool :=
  a == b || lzLt a.data b.data

/-- `PushRecordManager.is_in_time_range` (src/core/push_record.py) with the
clock read `now.strftime("%H:%M")` passed in as `currentTime`: normalize all
three strings and test `start <= current <= end` as Python string
comparisons. -/
def isInTimeRange (startTime endTime currentTime : String) : Bool :=
  let normalizedStart := pyNormalizeTime startTime
  let normalizedEnd := pyNormalizeTime endTime
  let normalizedCurrent := pyNormalizeTime currentTime
  pyStrLe normalizedStart normalizedCurrent && pyStrLe normalizedCurrent normalizedEnd

/-! ### SnapshotMerger (src/core/ranking.py, `_process_source_data`) -/

/-- A parsed per-title observation `{ranks, url, mobileUrl}` as produced by
`parse_file_titles` (all three keys are always present, so the `.get`
defaults of the consumers never fire). -/
structure TitleData where
  ranks : List Nat
  url : String
  mobileUrl : String
  deriving Repr, DecidableEq

/-- A merged statistics record of `title_info`
`{first_time, last_time, count, ranks, url, mobileUrl}`. -/
structure TitleInfo where
  first_time : String
  last_time : String
  count : Nat
  ranks : List Nat
  url : String
  mobileUrl : String
  deriving Repr, DecidableEq

/-- One platform's title dict `{title: {ranks, url, mobileUrl}}`. -/
abbrev Bucket := List (String × TitleData)

/-- One snapshot file's parse result `{platform_id: {title: ...}}`. -/
abbrev TitlesById := List (String × Bucket)

/-- A `title_info` accumulator `{platform_id: {title: TitleInfo}}`. -/
abbrev InfoById := List (String × List (String × TitleInfo))

/-- The fresh `title_info` record made for a first observation. -/
def mkTitleInfo (timeInfo : String) (data : TitleData) : TitleInfo :=
  ⟨timeInfo, timeInfo, 1, data.ranks, data.url, data.mobileUrl⟩

/-- One iteration of the per-title loop in the `else` branch of
`_process_source_data` (platform already present in `all_results`): a new
title is inserted into both maps; an existing title has its ranks merged, its
`last_time`, `ranks` and `count` updated and `url`/`mobileUrl` filled only if
still empty.  `none` models the `KeyError` Python would raise when
`title_info` lacks a record the code indexes (unreachable from real states,
where the two maps are kept in sync). -/
def mergeTitleStep (sourceId timeInfo : String)
    (st : Option (TitlesById × InfoById)) (entry : String × TitleData) :
    Option (TitlesById × InfoById) := do
  let (allResults, titleInfo) ← st
  let (title, data) := entry
  let sourceMap := (pyGet allResults sourceId).getD []
  match pyGet sourceMap title with
  | none =>
      let allResults := pySet allResults sourceId (pySet sourceMap title data)
      let infoMap ← pyGet titleInfo sourceId
      let titleInfo := pySet titleInfo sourceId (pySet infoMap title (mkTitleInfo timeInfo data))
      some (allResults, titleInfo)
  | some existing =>
      let mergedRanks := existing.ranks ++ data.ranks
      let allResults :=
        pySet allResults sourceId (pySet sourceMap title { existing with ranks := mergedRanks })
      let infoMap ← pyGet titleInfo sourceId
      let oldInfo ← pyGet infoMap title
      let newInfo : TitleInfo :=
        { oldInfo with
          last_time := timeInfo
          ranks := mergedRanks
          count := oldInfo.count + 1
          url := if oldInfo.url = "" then data.url else oldInfo.url
          mobileUrl := if oldInfo.mobileUrl = "" then data.mobileUrl else oldInfo.mobileUrl }
      some (allResults, pySet titleInfo sourceId (pySet infoMap title newInfo))

/-- `NewsRanking._process_source_data` (src/core/ranking.py): fold one
snapshot's data for one platform into the mutable accumulators
`(all_results, title_info)`.  A platform seen for the first time has its whole
dict adopted and fresh `title_info` records created; otherwise each title is
merged by `mergeTitleStep`. -/
def processSourceData (sourceId : String) (titleData : Bucket) (timeInfo : String)
    (allResults : TitlesById) (titleInfo : InfoById) :
    Option (TitlesById × InfoById) :=
  match pyGet allResults sourceId with
  | none =>
      let allResults := pySet allResults sourceId titleData
      let titleInfo :=
        if (pyGet titleInfo sourceId).isSome then titleInfo else pySet titleInfo sourceId []
      let infoMap := (pyGet titleInfo sourceId).getD []
      let infoMap :=
        titleData.foldl (fun acc entry => pySet acc entry.1 (mkTitleInfo timeInfo entry.2)) infoMap
      some (allResults, pySet titleInfo sourceId infoMap)
  | some _ =>
      titleData.foldl (mergeTitleStep sourceId timeInfo) (some (allResults, titleInfo))

/-! ### IncrementDetector (src/core/ranking.py, `detect_latest_new_titles`) -/

/-- The platform filter applied when `current_platform_ids` is given:
rebuild the dict keeping only monitored platforms, in order. -/
def filterByIds (currentPlatformIds : Option (List String)) (d : TitlesById) : TitlesById :=
  match currentPlatformIds with
  | none => d
  | some ids => d.filter (fun p => p.1 ∈ ids)

/-- Accumulate one (already filtered) historical snapshot into
`historical_titles : {platform_id: set of titles}`. -/
def histAddFile (hist : List (String × List String)) (file : TitlesById) :
    List (String × List String) :=
  file.foldl
    (fun h p =>
      pySet h p.1 ((p.2.map Prod.fst).foldl setAdd ((pyGet h p.1).getD [])))
    hist

/-- The body of the final loop of `detect_latest_new_titles`: keep the
titles of one latest-snapshot platform that are absent from its historical
set, appending the platform to the result only when something is new. -/
def newTitlesStep (historicalTitles : List (String × List String))
    (newTitles : TitlesById) (p : String × Bucket) : TitlesById :=
  let historicalSet := (pyGet historicalTitles p.1).getD []
  let sourceNewTitles : Bucket := p.2.filter (fun q => decide (q.1 ∉ historicalSet))
  if sourceNewTitles = [] then newTitles else newTitles ++ [(p.1, sourceNewTitles)]

/-- `NewsRanking.detect_latest_new_titles` (src/core/ranking.py) with the
directory read and `parse_file_titles` replaced by the list of parsed
snapshots, in filename (time) order.  Fewer than two snapshots give `{}`;
otherwise every title of the last snapshot that is absent from the union of
the earlier snapshots' titles for its platform is reported, platforms with no
new titles being omitted. -/
def detectLatestNewTitles (snapshots : List TitlesById)
    (currentPlatformIds : Option (List String)) : TitlesById :=
  if snapshots.length < 2 then []
  else
    let latestTitles := filterByIds currentPlatformIds ((snapshots.getLast?).getD [])
    let historicalTitles :=
      ((snapshots.dropLast).map (filterByIds currentPlatformIds)).foldl histAddFile []
    latestTitles.foldl (newTitlesStep historicalTitles) []

/-- Membership test used to state properties of snapshot dicts: does platform
`p`'s bucket contain title `t`? -/
def hasTitle (d : TitlesById) (p t : String) : Bool :=
  match pyGet d p with
  | some m => (pyGet m t).isSome
  | none => false

/-! ### Statistics generation (src/core/ranking.py, `_generate_statistics`) -/

/-- The per-title dict appended by `_process_title_for_stats` into
`word_stats[group_key]["titles"][source_id]`. -/
structure StatTitle where
  title : String
  source_name : String
  first_time : String
  last_time : String
  time_display : String
  count : Nat
  ranks : List Nat
  rank_threshold : Nat
  url : String
  mobileUrl : String
  is_new : Bool
  deriving Repr, DecidableEq

/-- The `News` dataclass fields populated by `_generate_statistics`
(`extra` holds the statistics payload). -/
structure NewsExtra where
  first_time : String
  last_time : String
  time_display : String
  count : Nat
  all_ranks : List Nat
  is_new : Bool
  mobileUrl : String
  deriving Repr, DecidableEq

/-- The `News` dataclass (src/models/news.py) as built by
`_generate_statistics`. -/
structure News where
  title : String
  url : String
  platform : String
  platform_name : String
  rank : Nat
  hotness : Nat
  extra : NewsExtra
  deriving Repr, DecidableEq

/-- The `WordGroupStatistic` dataclass (src/models/news.py); the Python float
`percentage` is embedded as ℚ. -/
structure WordGroupStatistic where
  word : String
  count : Nat
  news_list : List News
  percentage : ℚ
  deriving Repr, DecidableEq

/-- One value of the `word_stats` accumulator:
`{"count": n, "titles": {source_id: [StatTitle]}}`. -/
structure GroupStat where
  count : Nat
  titles : List (String × List StatTitle)
  deriving Repr, DecidableEq

/-- Python `min(l)` guarded by `if l else default`. -/
def pyListMin (l : List Nat) (dflt : Nat) : Nat :=
  match l with
  | [] => dflt
  | x :: xs => xs.foldl Nat.min x

/-- Round-half-to-even on ℚ (Python `round`'s tie-breaking rule). -/
def roundHalfEven (q : ℚ) : ℤ :=
  let n := ⌊q⌋
  if q - n < 1 / 2 then n
  else if (1 : ℚ) / 2 < q - n then n + 1
  else if n % 2 = 0 then n else n + 1

/-- Python `round(q, 2)` on the exact-rational embedding of floats. -/
def pyRound2 (q : ℚ) : ℚ :=
  (roundHalfEven (q * 100) : ℚ) / 100

/-- The sort key of `_generate_statistics`:
`(-weight, min(ranks) or 999, -count)`, embedded in ℚ³. -/
def statSortKey (cfg : RankConfig) (x : StatTitle) : ℚ × ℚ × ℚ :=
  (-(calculateWeight cfg ⟨x.ranks, some x.count⟩), (pyListMin x.ranks 999 : ℚ), -(x.count : ℚ))

/-- Lexicographic ≤ on the sort key (Python tuple comparison). -/
def statKeyLe (cfg : RankConfig) (a b : StatTitle) : Bool :=
  let ka := statSortKey cfg a
  let kb := statSortKey cfg b
  decide (ka.1 < kb.1) ||
    (decide (ka.1 = kb.1) &&
      (decide (ka.2.1 < kb.2.1) || (decide (ka.2.1 = kb.2.1) && decide (ka.2.2 ≤ kb.2.2))))

/-- One iteration of the `NewsRanking._generate_statistics` loop
(src/core/ranking.py): gather one word group's titles across platforms, sort
them by `(-weight, min rank, -count)`, convert to `News`, and attach
`percentage = round(count / total * 100, 2)` (0 when the total is 0). -/
def buildGroupStatistic (cfg : RankConfig) (totalTitles : Nat)
    (entry : String × GroupStat) : WordGroupStatistic :=
  let groupKey := entry.1
  let data := entry.2
  let allTitles := data.titles.foldl (fun (a : List StatTitle) q => a ++ q.2) []
  let sortedTitles := allTitles.mergeSort (fun a b => statKeyLe cfg a b)
  let newsList := sortedTitles.map (fun item =>
    News.mk item.title item.url "" item.source_name
      (pyListMin item.ranks 99) 0
      ⟨item.first_time, item.last_time, item.time_display, item.count,
       item.ranks, item.is_new, item.mobileUrl⟩)
  let percentage :=
    if 0 < totalTitles then pyRound2 ((data.count : ℚ) / totalTitles * 100) else 0
  ⟨groupKey, data.count, newsList, percentage⟩

/-- The loop of `_generate_statistics` followed by the final
`stats.sort(key=..., reverse=True)` (a stable descending sort, like
Python's). -/
def generateStatistics (cfg : RankConfig) (wordStats : List (String × GroupStat))
    (totalTitles : Nat) : List WordGroupStatistic :=
  let stats := wordStats.foldl
    (fun (acc : List WordGroupStatistic) entry =>
      acc ++ [buildGroupStatistic cfg totalTitles entry])
    []
  stats.mergeSort (fun a b => decide (b.count ≤ a.count))

/-! ### PushGate and dispatcher (src/core/push_record.py, src/notifiers/manager.py) -/

/-- The `PUSH_WINDOW` configuration slice read by `_check_push_window`, with
the dictionary defaults (`ENABLED=False`, `ONCE_PER_DAY=False`,
`START="00:00"`, `END="23:59"`) already resolved into the fields. -/
structure PushWindowConfig where
  enabled : Bool
  oncePerDay : Bool
  startTime : String
  endTime : String
  deriving Repr, DecidableEq

/-- The on-disk push record `{pushed, push_time, report_type}` for the
current calendar day; `none` models a missing (or unreadable) file. -/
structure PushRecord where
  pushed : Bool
  push_time : String
  report_type : String
  deriving Repr, DecidableEq

/-- `PushRecordManager.has_pushed_today`: `False` without a readable record
file, otherwise the record's `pushed` flag. -/
def hasPushedToday : Option PushRecord → Bool
  | none => false
  | some r => r.pushed

/-- `PushRecordManager.record_push`: overwrite today's record with
`pushed=True` (the manager is only instantiated by the dispatcher when the
window feature and the once-per-day limit are both enabled). -/
def writePushRecord (reportType nowFull : String) : PushRecord :=
  ⟨true, nowFull, reportType⟩

/-- `NotificationManager._check_push_window` (src/notifiers/manager.py) with
the clock reading `now.strftime("%H:%M")` passed as `currentHM`: always allow
when the window feature is off; otherwise require the time range, and — when
once-per-day is on — that today is still unpushed. -/
def checkPushWindow (cfg : PushWindowConfig) (record : Option PushRecord)
    (currentHM : String) : Bool :=
  if !cfg.enabled then true
  else if !isInTimeRange cfg.startTime cfg.endTime currentHM then false
  else if cfg.oncePerDay then !hasPushedToday record
  else true

/-- `NotificationManager._record_push`: the record is only written when the
window feature and once-per-day are both enabled. -/
def recordPush (cfg : PushWindowConfig) (record : Option PushRecord)
    (reportType nowFull : String) : Option PushRecord :=
  if cfg.enabled && cfg.oncePerDay then some (writePushRecord reportType nowFull)
  else record

/-- One notification channel as the dispatcher sees it: its registry name,
whether its credentials are configured, and the outcome of `send`
(`none` models an exception escaping `send`, which the dispatcher converts to
a `False` result). -/
structure Channel where
  name : String
  configured : Bool
  sendResult : Option Bool
  deriving Repr, DecidableEq

/-- `NotificationManager.send_notifications` (src/notifiers/manager.py):
gate check (empty result map when denied), then each configured channel is
sent to in order — an exception becomes `False` — and if any channel
succeeded today's push record is advanced.  Returns
`(results, new push record, names of channels whose send was invoked)`. -/
def sendNotifications (cfg : PushWindowConfig) (record : Option PushRecord)
    (channels : List Channel) (reportType currentHM nowFull : String) :
    List (String × Bool) × Option PushRecord × List String :=
  if !checkPushWindow cfg record currentHM then ([], record, [])
  else
    let enabledNotifiers := channels.filter (fun c => c.configured)
    if enabledNotifiers = [] then ([], record, [])
    else
      let results := enabledNotifiers.map (fun c => (c.name, c.sendResult.getD false))
      let record :=
        if (results.map Prod.snd).any (fun b => b) then recordPush cfg record reportType nowFull
        else record
      (results, record, enabledNotifiers.map (fun c => c.name))

/-! ### ChannelFormatter (src/core/reporter.py, `format_title_for_platform`) -/

/-- `html_escape` (src/utils/file.py): sequential replacement of the six
special characters (`&` first, so later insertions are not re-escaped). -/
def htmlEscape (text : String) : String :=
  if text = "" then ""
  else
    (((((text.replace "&" "&amp;").replace "<" "&lt;").replace ">" "&gt;").replace
        "\"" "&quot;").replace "\x27" "&#x27;").replace "/" "&#x2F;"

/-- The per-title dict of a prepared report (`prepare_report_data`):
`{title, source_name, time_display, count, ranks, rank_threshold, url,
mobile_url, is_new}`. -/
structure ReportTitle where
  title : String
  source_name : String
  time_display : String
  count : Nat
  ranks : List Nat
  rank_threshold : Nat
  url : String
  mobile_url : String
  is_new : Bool
  deriving Repr, DecidableEq

/-- `NewsReporter.format_rank_display` (src/core/reporter.py): `""` for no
ranks; otherwise `[min]` or `[min - max]`, wrapped in per-platform highlight
markup when `min ≤ rank_threshold`. -/
def formatRankDisplay (ranks : List Nat) (rankThreshold : Nat) (formatType : String) : String :=
  match ranks with
  | [] => ""
  | r :: rs =>
      let minRank := rs.foldl Nat.min r
      let maxRank := rs.foldl Nat.max r
      let hl : String × String :=
        if formatType = "html" then ("<font color=\x27red\x27><strong>", "</strong></font>")
        else if formatType = "feishu" then ("<font color=\x27red\x27>**", "**</font>")
        else if formatType = "dingtalk" ∨ formatType = "wework" then ("**", "**")
        else if formatType = "telegram" then ("<b>", "</b>")
        else ("**", "**")
      let isHighlight := minRank ≤ rankThreshold
      let rankText :=
        if minRank = maxRank then "[" ++ toString minRank ++ "]"
        else "[" ++ toString minRank ++ " - " ++ toString maxRank ++ "]"
      if isHighlight then hl.1 ++ rankText ++ hl.2 else rankText

/-- `NewsReporter._format_feishu`. -/
def formatFeishu (title linkUrl mark : String) (data : ReportTitle)
    (rankDisplay : String) (showSource : Bool) : String :=
  let formattedTitle := if linkUrl ≠ "" then "[" ++ title ++ "](" ++ linkUrl ++ ")" else title
  let result :=
    if showSource then
      "<font color=\x27grey\x27>[" ++ data.source_name ++ "]</font> " ++ mark ++ formattedTitle
    else mark ++ formattedTitle
  let result := if rankDisplay ≠ "" then result ++ " " ++ rankDisplay else result
  let result :=
    if data.time_display ≠ "" then
      result ++ " <font color=\x27grey\x27>- " ++ data.time_display ++ "</font>"
    else result
  if data.count > 1 then
    result ++ " <font color=\x27green\x27>(" ++ toString data.count ++ "次)</font>"
  else result

/-- `NewsReporter._format_dingtalk` (also used verbatim by `_format_wework`). -/
def formatDingtalk (title linkUrl mark : String) (data : ReportTitle)
    (rankDisplay : String) (showSource : Bool) : String :=
  let formattedTitle := if linkUrl ≠ "" then "[" ++ title ++ "](" ++ linkUrl ++ ")" else title
  let result :=
    if showSource then "[" ++ data.source_name ++ "] " ++ mark ++ formattedTitle
    else mark ++ formattedTitle
  let result := if rankDisplay ≠ "" then result ++ " " ++ rankDisplay else result
  let result :=
    if data.time_display ≠ "" then result ++ " - " ++ data.time_display else result
  if data.count > 1 then result ++ " (" ++ toString data.count ++ "次)" else result

/-- `NewsReporter._format_telegram` (the one channel that HTML-escapes the
linked title). -/
def formatTelegram (title linkUrl mark : String) (data : ReportTitle)
    (rankDisplay : String) (showSource : Bool) : String :=
  let formattedTitle :=
    if linkUrl ≠ "" then
      "<a href=\"" ++ linkUrl ++ "\">" ++ htmlEscape title ++ "</a>"
    else title
  let result :=
    if showSource then "[" ++ data.source_name ++ "] " ++ mark ++ formattedTitle
    else mark ++ formattedTitle
  let result := if rankDisplay ≠ "" then result ++ " " ++ rankDisplay else result
  let result :=
    if data.time_display ≠ "" then
      result ++ " <code>- " ++ data.time_display ++ "</code>"
    else result
  if data.count > 1 then result ++ " <code>(" ++ toString data.count ++ "次)</code>" else result

/-- `NewsReporter._format_ntfy`. -/
def formatNtfy (title linkUrl mark : String) (data : ReportTitle)
    (rankDisplay : String) (showSource : Bool) : String :=
  let formattedTitle := if linkUrl ≠ "" then "[" ++ title ++ "](" ++ linkUrl ++ ")" else title
  let result :=
    if showSource then "[" ++ data.source_name ++ "] " ++ mark ++ formattedTitle
    else mark ++ formattedTitle
  let result := if rankDisplay ≠ "" then result ++ " " ++ rankDisplay else result
  let result :=
    if data.time_display ≠ "" then result ++ " `- " ++ data.time_display ++ "`" else result
  if data.count > 1 then result ++ " `(" ++ toString data.count ++ "次)`" else result

/-- `NewsReporter._format_html`. -/
def formatHtml (title linkUrl : String) (data : ReportTitle) (rankDisplay : String) : String :=
  let escapedTitle := htmlEscape title
  let escapedSourceName := htmlEscape data.source_name
  let formattedTitle :=
    if linkUrl ≠ "" then
      "[" ++ escapedSourceName ++ "] <a href=\"" ++ htmlEscape linkUrl ++
        "\" target=\"_blank\" class=\"news-link\">" ++ escapedTitle ++ "</a>"
    else "[" ++ escapedSourceName ++ "] <span class=\"no-link\">" ++ escapedTitle ++ "</span>"
  let formattedTitle :=
    if rankDisplay ≠ "" then formattedTitle ++ " " ++ rankDisplay else formattedTitle
  let formattedTitle :=
    if data.time_display ≠ "" then
      formattedTitle ++ " <font color=\x27grey\x27>- " ++ htmlEscape data.time_display ++ "</font>"
    else formattedTitle
  let formattedTitle :=
    if data.count > 1 then
      formattedTitle ++ " <font color=\x27green\x27>(" ++ toString data.count ++ "次)</font>"
    else formattedTitle
  if data.is_new then "<div class=\x27new-title\x27>🆕 " ++ formattedTitle ++ "</div>"
  else formattedTitle

/-- `NewsReporter.format_title_for_platform` (src/core/reporter.py). -/
def formatTitleForPlatform (platform : String) (titleData : ReportTitle)
    (showSource : Bool) : String :=
  let rankDisplay := formatRankDisplay titleData.ranks titleData.rank_threshold platform
  let linkUrl := if titleData.mobile_url ≠ "" then titleData.mobile_url else titleData.url
  let cleanedTitle := cleanTitle titleData.title
  let titleMark := if titleData.is_new then "🆕 " else ""
  if platform = "feishu" then
    formatFeishu cleanedTitle linkUrl titleMark titleData rankDisplay showSource
  else if platform = "dingtalk" then
    formatDingtalk cleanedTitle linkUrl titleMark titleData rankDisplay showSource
  else if platform = "wework" then
    formatDingtalk cleanedTitle linkUrl titleMark titleData rankDisplay showSource
  else if platform = "telegram" then
    formatTelegram cleanedTitle linkUrl titleMark titleData rankDisplay showSource
  else if platform = "ntfy" then
    formatNtfy cleanedTitle linkUrl titleMark titleData rankDisplay showSource
  else if platform = "html" then
    formatHtml cleanedTitle linkUrl titleData rankDisplay
  else cleanedTitle

/-! ### BatchSender (src/notifiers/batch_sender.py) -/

/-- One entry of `report_data["stats"]`:
`{word, count, percentage, titles}` (the float `percentage` is embedded as
ℚ). -/
structure ReportStat where
  word : String
  count : Nat
  percentage : ℚ
  titles : List ReportTitle
  deriving Repr, DecidableEq

/-- One entry of `report_data["new_titles"]`:
`{source_id, source_name, titles}`. -/
structure ReportSource where
  source_id : String
  source_name : String
  titles : List ReportTitle
  deriving Repr, DecidableEq

/-- The prepared report dict consumed by the splitter. -/
structure ReportData where
  stats : List ReportStat
  new_titles : List ReportSource
  failed_ids : List String
  deriving Repr, DecidableEq

/-- UTF-8 byte length of a string (`len(s.encode("utf-8"))`): the sum of the
per-character UTF-8 sizes. -/
def bytesLen (s : String) : Nat :=
  (s.data.map Char.utf8Size).sum

/-- `bytesLen` as an integer (Python byte arithmetic is over ℤ: the safety
margin can drive the working budget negative). -/
def lenZ (s : String) : ℤ :=
  (bytesLen s : ℤ)

/-- Python `str(f)` for the two-decimal nonnegative floats interpolated into
stat headers (`percentage`): an integral value prints with a trailing `.0`,
otherwise the shortest one- or two-decimal form. -/
def pyFloatStr (q : ℚ) : String :=
  let c : ℤ := Int.fdiv (q.num * 100) (q.den : ℤ)
  let ip := c / 100
  let fr := c % 100
  if fr = 0 then toString ip ++ ".0"
  else if fr % 10 = 0 then toString ip ++ "." ++ toString (fr / 10)
  else if fr < 10 then toString ip ++ ".0" ++ toString fr
  else toString ip ++ "." ++ toString fr

/-- `BatchSender._build_header`: the report title plus the total matched-news
count (the platform branches produce identical markup except for Telegram's
HTML tags and the plain fallback). -/
def buildHeader (stats : List ReportStat) (platform : String) : String :=
  let totalNews := (stats.map (fun s => s.count)).sum
  if platform = "feishu" then
    "📊 **热点词汇统计**\n\n共 " ++ toString totalNews ++ " 条匹配新闻\n\n"
  else if platform = "dingtalk" ∨ platform = "wework" then
    "📊 **热点词汇统计**\n\n共 " ++ toString totalNews ++ " 条匹配新闻\n\n"
  else if platform = "telegram" then
    "📊 <b>热点词汇统计</b>\n\n共 " ++ toString totalNews ++ " 条匹配新闻\n\n"
  else "📊 热点词汇统计\n\n共 " ++ toString totalNews ++ " 条匹配新闻\n\n"

/-- `BatchSender._build_stat_section`: group title line plus each formatted
item on its own line, closed by a blank line. -/
def buildStatSection (stat : ReportStat) (platform : String) : String :=
  let content :=
    if platform = "feishu" then
      "**" ++ stat.word ++ "** (共" ++ toString stat.count ++ "条，占比" ++
        pyFloatStr stat.percentage ++ "%)\n\n"
    else if platform = "dingtalk" ∨ platform = "wework" then
      "**" ++ stat.word ++ "** (共" ++ toString stat.count ++ "条，占比" ++
        pyFloatStr stat.percentage ++ "%)\n\n"
    else if platform = "telegram" then
      "<b>" ++ stat.word ++ "</b> (共" ++ toString stat.count ++ "条，占比" ++
        pyFloatStr stat.percentage ++ "%)\n\n"
    else
      stat.word ++ " (共" ++ toString stat.count ++ "条，占比" ++
        pyFloatStr stat.percentage ++ "%)\n\n"
  let content := stat.titles.foldl
    (fun acc titleData => acc ++ formatTitleForPlatform platform titleData true ++ "\n") content
  content ++ "\n"

/-- `BatchSender._build_new_titles_section`: the "new in the latest batch"
banner, then per platform a sub-header and its formatted titles. -/
def buildNewTitlesSection (newTitles : List ReportSource) (platform : String) : String :=
  let content :=
    if platform = "feishu" then "**🆕 最新批次新增**\n\n"
    else if platform = "dingtalk" ∨ platform = "wework" then "**🆕 最新批次新增**\n\n"
    else if platform = "telegram" then "<b>🆕 最新批次新增</b>\n\n"
    else "🆕 最新批次新增\n\n"
  newTitles.foldl
    (fun acc sourceData =>
      let titlesCount := sourceData.titles.length
      let acc :=
        if platform = "feishu" then
          acc ++ "**" ++ sourceData.source_name ++ "** (新增" ++ toString titlesCount ++ "条)\n\n"
        else if platform = "dingtalk" ∨ platform = "wework" then
          acc ++ "**" ++ sourceData.source_name ++ "** (新增" ++ toString titlesCount ++ "条)\n\n"
        else if platform = "telegram" then
          acc ++ "<b>" ++ sourceData.source_name ++ "</b> (新增" ++ toString titlesCount ++ "条)\n\n"
        else acc ++ sourceData.source_name ++ " (新增" ++ toString titlesCount ++ "条)\n\n"
      let acc := sourceData.titles.foldl
        (fun a titleData => a ++ formatTitleForPlatform platform titleData false ++ "\n") acc
      acc ++ "\n")
    content

/-- `BatchSender._build_failed_section`: blank for no failures, else one
warning line listing the failed platform ids (identical on every platform
except Feishu's grey markup). -/
def buildFailedSection (failedIds : List String) (platform : String) : String :=
  if failedIds = [] then ""
  else if platform = "feishu" then
    "\n<font color=\x27grey\x27>⚠️ 以下平台请求失败: " ++ ", ".intercalate failedIds ++ "</font>\n"
  else if platform = "dingtalk" ∨ platform = "wework" then
    "\n⚠️ 以下平台请求失败: " ++ ", ".intercalate failedIds ++ "\n"
  else if platform = "telegram" then
    "\n⚠️ 以下平台请求失败: " ++ ", ".intercalate failedIds ++ "\n"
  else "\n⚠️ 以下平台请求失败: " ++ ", ".intercalate failedIds ++ "\n"

/-- `BatchSender._build_footer` with the clock reading
`get_beijing_time().strftime("%Y-%m-%d %H:%M:%S")` passed as `timestamp` and
`update_info` reduced to the only field it is read for
(`latest_version`).  The `mode` argument is accepted and unused, as in the
source. -/
def buildFooter (updateInfo : Option String) (platform : String) (mode : String)
    (timestamp : String) : String :=
  let footer := "\n"
  let footer :=
    match updateInfo with
    | some latestVersion =>
        if platform = "feishu" then
          footer ++ "<font color=\x27orange\x27>ℹ️ 发现新版本 v" ++ latestVersion ++
            "，请前往 GitHub 更新</font>\n"
        else if platform = "dingtalk" ∨ platform = "wework" then
          footer ++ "ℹ️ 发现新版本 v" ++ latestVersion ++ "，请前往 GitHub 更新\n"
        else if platform = "telegram" then
          footer ++ "ℹ️ 发现新版本 v" ++ latestVersion ++ "，请前往 GitHub 更新\n"
        else footer ++ "ℹ️ 发现新版本 v" ++ latestVersion ++ "，请前往 GitHub 更新\n"
    | none => footer
  if platform = "feishu" then footer ++ "<font color=\x27grey\x27>📅 " ++ timestamp ++ "</font>"
  else if platform = "dingtalk" ∨ platform = "wework" then footer ++ "📅 " ++ timestamp
  else if platform = "telegram" then footer ++ "<code>📅 " ++ timestamp ++ "</code>"
  else footer ++ "📅 " ++ timestamp

/-- The overflow step of `split_content_into_batches` applied to one rendered
section (used for each word-group section and for the new-items section):
flush the current message (append footer, emit) and restart from the header
when appending would exceed the working budget and the current message is
non-blank after `strip()`; then append the section. -/
def splitStep (safeMaxBytes : ℤ) (baseFooter header : String)
    (st : List String × String) (sectionContent : String) : List String × String :=
  let sectionSize := lenZ sectionContent
  let currentSize := lenZ st.2
  if currentSize + sectionSize > safeMaxBytes ∧ pyStrip st.2 ≠ "" then
    (st.1 ++ [st.2 ++ baseFooter], header ++ sectionContent)
  else (st.1, st.2 ++ sectionContent)

/-- `BatchSender.split_content_into_batches` (src/notifiers/batch_sender.py):
reserve `footer + 500` bytes from `max_bytes`, start from the header, append
each non-empty word-group section and the new-items section under the
overflow rule, append the failed-platform section unconditionally, and emit
the final message only if it holds more than the bare header. -/
def splitContentIntoBatches (reportData : ReportData) (platform : String)
    (updateInfo : Option String) (maxBytes : ℤ) (mode : String)
    (timestamp : String) : List String :=
  let baseFooter := buildFooter updateInfo platform mode timestamp
  let footerSize := lenZ baseFooter
  let safeMaxBytes := maxBytes - footerSize - 500
  let header := buildHeader reportData.stats platform
  let st := reportData.stats.foldl
    (fun (st : List String × String) stat =>
      if stat.count ≤ 0 then st
      else splitStep safeMaxBytes baseFooter header st (buildStatSection stat platform))
    ([], header)
  let st :=
    if reportData.new_titles ≠ [] then
      splitStep safeMaxBytes baseFooter header st
        (buildNewTitlesSection reportData.new_titles platform)
    else st
  let currentBatch :=
    if reportData.failed_ids ≠ [] then
      st.2 ++ buildFailedSection reportData.failed_ids platform
    else st.2
  if pyStrip currentBatch ≠ pyStrip header then st.1 ++ [currentBatch ++ baseFooter]
  else st.1

/-- A report whose single word-group section is larger than any reasonable
budget: one 600-character title. -/
def oversizeReport : ReportData :=
  ⟨[⟨"W", 1, 50, [⟨String.mk (List.replicate 600 'a'), "S", "", 1, [1], 10, "", "", false⟩]⟩],
    [], []⟩

/-- A small report: one word group with one short title. -/
def smallReport : ReportData :=
  ⟨[⟨"W", 1, 50, [⟨"t", "S", "", 1, [1], 10, "", "", false⟩]⟩], [], []⟩

/-! ## Theorems -/

/-! ### Association-list lemmas -/

theorem pyGet_pySet_same {α : Type} (d : List (String × α)) (k : String) (v : α) :
    pyGet (pySet d k v) k = some v := by
  induction d with
  | nil => simp [pyGet, pySet]
  | cons p rest ih =>
      by_cases h : p.1 = k
      · simp [pyGet, pySet, h]
      · simp [pyGet, pySet, h, ih]

theorem pyGet_pySet_ne {α : Type} (d : List (String × α)) (k k' : String) (v : α)
    (h : k ≠ k') : pyGet (pySet d k v) k' = pyGet d k' := by
  induction d with
  | nil => simp [pyGet, pySet, h]
  | cons p rest ih =>
      by_cases hp : p.1 = k
      · simp [pyGet, pySet, hp, h]
      · simp [pyGet, pySet, hp, ih]

theorem pyGet_eq_none_of_not_mem {α : Type} (d : List (String × α)) (k : String)
    (h : k ∉ d.map Prod.fst) : pyGet d k = none := by
  induction d with
  | nil => rfl
  | cons p rest ih =>
      simp only [List.map_cons, List.mem_cons, not_or] at h
      have hne : ¬ p.1 = k := fun hk => h.1 hk.symm
      simp [pyGet, hne, ih h.2]

/-! ### C10: with no keyword groups every title matches -/

/-- C10 — When `word_groups` is empty, `NewsFilter.matches` returns `True`
for every title (the filter-word check is skipped), even though a
configuration made only of `!`-lines produces an empty group list alongside a
non-empty filter-word list; the sample title would otherwise be excluded,
since it contains the filter word. -/
theorem newsFilter_matches_all_without_groups :
    (∀ (filterWords : List String) (title : String),
        newsFilterMatches [] filterWords title = true) ∧
    (loadFrequencyWords "!foo\n!bar").1 = [] ∧
    (loadFrequencyWords "!foo\n!bar").2 = ["foo", "bar"] ∧
    newsFilterMatches (loadFrequencyWords "!foo\n!bar").1
        (loadFrequencyWords "!foo\n!bar").2 "foo news" = true ∧
    strHas (pyLower "foo news") (pyLower "foo") = true :=
  ⟨fun _ _ => rfl, by decide, by decide, by decide, by decide⟩

/-! ### C8: malformed push-window bounds -/

/-- C8 — A malformed end time is returned unchanged by `_normalize_time`
(treated literally, as the claim says), but the lexicographic comparison does
NOT necessarily fail: with `start="00:00"`, `end="9:99"` and current time
`12:00`, `is_in_time_range` returns `True` and the window is allowed, contrary
to the claim (and to the source comment "return the original string, let the
comparison fail"). -/
theorem isInTimeRange_malformed_end_allows :
    pyNormalizeTime "9:99" = "9:99" ∧
    pyNormalizeTime "00:00" = "00:00" ∧
    isInTimeRange "00:00" "9:99" "12:00" = true := by
  refine ⟨by decide, by decide, by decide⟩

/-! ### C4: the weight formula -/

/-- C4 — `NewsRanking._calculate_weight` on a record with ranks list `ranks`
and occurrence count `c` equals
`w_rank * mean(11 - min(rank, 10)) + w_freq * (min(c, 10) * 10)
 + w_hot * (100 * |{rank ≤ t}| / len(ranks))` with the configured
coefficients applied unnormalized, and is 0 on an empty ranks list. -/
theorem calculateWeight_eq_specFormula (cfg : RankConfig) (ranks : List Nat) (c : Nat)
    (hne : ranks ≠ []) :
    calculateWeight cfg ⟨ranks, some c⟩ =
      specWeightFormula cfg.rank_threshold cfg.rank_weight cfg.frequency_weight
        cfg.hotness_weight ranks c ∧
    calculateWeight cfg ⟨[], some c⟩ = 0 := by
  constructor
  · simp only [calculateWeight, specWeightFormula, if_neg hne, Option.getD_some]
    ring
  · simp [calculateWeight]

/-- Witness for C4 at the default configuration, `ranks = [1, 2]`, `c = 3`. -/
theorem calculateWeight_eq_specFormula_witness :
    calculateWeight defaultRankConfig ⟨[1, 2], some 3⟩ =
      specWeightFormula 10 (6 / 10) (3 / 10) (1 / 10) [1, 2] 3 ∧
    calculateWeight defaultRankConfig ⟨[], some 3⟩ = 0 :=
  calculateWeight_eq_specFormula defaultRankConfig [1, 2] 3 (by decide)

/-! ### C9: monotonicity of the weight in rank quality -/

theorem rankScores_sum_antitone {r1 r2 : List Nat} (h : List.Forall₂ (· ≤ ·) r1 r2) :
    (r2.map (fun rank => (11 : ℚ) - (min rank 10 : Nat))).sum ≤
      (r1.map (fun rank => (11 : ℚ) - (min rank 10 : Nat))).sum := by
  induction h with
  | nil => simp
  | cons h1 _ ih =>
      simp only [List.map_cons, List.sum_cons]
      refine add_le_add (sub_le_sub_left ?_ 11) ih
      exact_mod_cast min_le_min h1 (le_refl 10)

theorem highRank_count_antitone (t : Nat) {r1 r2 : List Nat}
    (h : List.Forall₂ (· ≤ ·) r1 r2) :
    (r2.filter (fun rank => rank ≤ t)).length ≤ (r1.filter (fun rank => rank ≤ t)).length := by
  induction h with
  | nil => simp
  | @cons a b l1 l2 h1 _ ih =>
      simp only [List.filter_cons]
      by_cases hb : b ≤ t
      · have ha : a ≤ t := le_trans h1 hb
        simpa [hb, ha] using Nat.succ_le_succ ih
      · by_cases ha : a ≤ t
        · simpa [hb, ha] using le_trans ih (Nat.le_succ _)
        · simpa [hb, ha] using ih

/-- C9 — For nonnegative coefficients (the configured defaults are
0.6/0.3/0.1), the same occurrence count and the same threshold, a record
whose ranks are pointwise ≤ another record's ranks (lists of equal length)
receives a weight at least as large from `_calculate_weight`. -/
theorem calculateWeight_monotone (cfg : RankConfig)
    (hwr : 0 ≤ cfg.rank_weight) (hwf : 0 ≤ cfg.frequency_weight)
    (hwh : 0 ≤ cfg.hotness_weight) (co : Option Nat) (r1 r2 : List Nat)
    (h : List.Forall₂ (· ≤ ·) r1 r2) :
    calculateWeight cfg ⟨r2, co⟩ ≤ calculateWeight cfg ⟨r1, co⟩ := by
  rcases r1 with _ | ⟨a, as⟩
  · cases h
    simp [calculateWeight]
  · rcases r2 with _ | ⟨b, bs⟩
    · cases h
    · have hne1 : (a :: as) ≠ ([] : List Nat) := by simp
      have hne2 : (b :: bs) ≠ ([] : List Nat) := by simp
      have hlen : (b :: bs).length = (a :: as).length := h.length_eq.symm
      have hs := rankScores_sum_antitone h
      have hc := highRank_count_antitone cfg.rank_threshold h
      simp only [calculateWeight, if_neg hne1, if_neg hne2]
      rw [hlen]
      have hL : (0 : ℚ) < ((a :: as).length : ℚ) := by
        exact_mod_cast Nat.succ_pos as.length
      refine add_le_add (add_le_add ?_ le_rfl) ?_
      · exact mul_le_mul_of_nonneg_right ((div_le_div_right hL).mpr hs) hwr
      · refine mul_le_mul_of_nonneg_right (mul_le_mul_of_nonneg_right ?_ (by norm_num)) hwh
        exact (div_le_div_right hL).mpr (by exact_mod_cast hc)

/-- Witness for C9 at the default configuration with ranks `[1, 3]` versus
`[2, 5]` and count 2. -/
theorem calculateWeight_monotone_witness :
    calculateWeight defaultRankConfig ⟨[2, 5], some 2⟩ ≤
      calculateWeight defaultRankConfig ⟨[1, 3], some 2⟩ :=
  calculateWeight_monotone defaultRankConfig (by norm_num [defaultRankConfig])
    (by norm_num [defaultRankConfig]) (by norm_num [defaultRankConfig]) (some 2) [1, 3] [2, 5]
    (List.Forall₂.cons (by norm_num) (List.Forall₂.cons (by norm_num) List.Forall₂.nil))

/-! ### C5: once-per-day gating across two dispatch calls -/

/-- C5 — With the push window and once-per-day enabled, a dispatch call in
which some channel reported success advances the day's record to
pushed-today, and any second dispatch call the same day is denied by the
gate: it returns an empty result map and invokes no channel's send. -/
theorem sendNotifications_denied_after_success (cfg : PushWindowConfig)
    (record0 : Option PushRecord) (channels channels2 : List Channel)
    (rt rt2 hm hm2 nf nf2 : String)
    (results1 : List (String × Bool)) (record1 : Option PushRecord) (sent1 : List String)
    (henabled : cfg.enabled = true) (honce : cfg.oncePerDay = true)
    (hrun : sendNotifications cfg record0 channels rt hm nf = (results1, record1, sent1))
    (hsucc : (results1.map Prod.snd).any (fun b => b) = true) :
    hasPushedToday record1 = true ∧
    sendNotifications cfg record1 channels2 rt2 hm2 nf2 = ([], record1, []) := by
  cases hgate : checkPushWindow cfg record0 hm with
  | false =>
      rw [sendNotifications, hgate] at hrun
      simp only [Bool.not_false, if_true, Prod.mk.injEq] at hrun
      rw [← hrun.1] at hsucc
      simp at hsucc
  | true =>
      rw [sendNotifications, hgate] at hrun
      simp only [Bool.not_true, Bool.false_eq_true, if_false] at hrun
      by_cases hen : channels.filter (fun c => c.configured) = []
      · simp only [hen, if_pos, List.map_nil, Prod.mk.injEq] at hrun
        rw [← hrun.1] at hsucc
        simp at hsucc
      · simp only [if_neg hen, Prod.mk.injEq] at hrun
        obtain ⟨hres, hrec, hsent⟩ := hrun
        rw [← hres] at hsucc
        rw [hsucc, if_pos rfl] at hrec
        rw [recordPush, henabled, honce] at hrec
        simp only [Bool.and_self, if_pos] at hrec
        have hrec1 : record1 = some (writePushRecord rt nf) := hrec.symm
        have hpushed : hasPushedToday record1 = true := by
          rw [hrec1]; rfl
        refine ⟨hpushed, ?_⟩
        have hgate2 : checkPushWindow cfg record1 hm2 = false := by
          rw [checkPushWindow, henabled]
          cases hr : isInTimeRange cfg.startTime cfg.endTime hm2 <;>
            simp [honce, hpushed]
        rw [sendNotifications, hgate2]
        simp

/-- Witness for C5: one configured channel succeeds at 12:00; the 13:00 call
the same day is denied with an empty result map and no send invoked. -/
theorem sendNotifications_denied_after_success_witness :
    hasPushedToday (some (writePushRecord "daily" "2026-01-01 12:00:00")) = true ∧
    sendNotifications ⟨true, true, "09:00", "23:59"⟩
        (some (writePushRecord "daily" "2026-01-01 12:00:00"))
        [⟨"feishu", true, some true⟩] "daily" "13:00" "2026-01-01 13:00:00" =
      ([], some (writePushRecord "daily" "2026-01-01 12:00:00"), []) :=
  sendNotifications_denied_after_success ⟨true, true, "09:00", "23:59"⟩ none
    [⟨"feishu", true, some true⟩] [⟨"feishu", true, some true⟩]
    "daily" "daily" "12:00" "13:00" "2026-01-01 12:00:00" "2026-01-01 13:00:00"
    [("feishu", true)] (some (writePushRecord "daily" "2026-01-01 12:00:00")) ["feishu"]
    rfl rfl (by decide) (by decide)

/-! ### C3: merging an observation for an already-present (platform, title) -/

/-- C3 — When `_process_source_data` handles an observation for a
`(platform, title)` pair already present in the accumulators (whose two
views agree on the stored ranks), the resulting record keeps `first_time`,
appends the observation's ranks after the existing ones, sets `last_time` to
the new snapshot's time label, increments `count` by exactly one, and fills
`url`/`mobileUrl` only if they were previously empty. -/
theorem processSourceData_merges_existing
    (sourceId timeInfo title : String) (obs : TitleData)
    (allResults : TitlesById) (titleInfo : InfoById)
    (sourceMap : Bucket) (infoMap : List (String × TitleInfo))
    (oldData : TitleData) (oldInfo : TitleInfo)
    (hsm : pyGet allResults sourceId = some sourceMap)
    (hod : pyGet sourceMap title = some oldData)
    (him : pyGet titleInfo sourceId = some infoMap)
    (hoi : pyGet infoMap title = some oldInfo)
    (hsync : oldData.ranks = oldInfo.ranks) :
    ∃ ar ti, processSourceData sourceId [(title, obs)] timeInfo allResults titleInfo =
        some (ar, ti) ∧
      (∃ sm, pyGet ar sourceId = some sm ∧
          pyGet sm title = some { oldData with ranks := oldInfo.ranks ++ obs.ranks }) ∧
      (∃ im, pyGet ti sourceId = some im ∧
          pyGet im title = some
            { first_time := oldInfo.first_time
              last_time := timeInfo
              count := oldInfo.count + 1
              ranks := oldInfo.ranks ++ obs.ranks
              url := if oldInfo.url = "" then obs.url else oldInfo.url
              mobileUrl := if oldInfo.mobileUrl = "" then obs.mobileUrl else oldInfo.mobileUrl }) := by
  refine
    ⟨pySet allResults sourceId
        (pySet sourceMap title { oldData with ranks := oldInfo.ranks ++ obs.ranks }),
      pySet titleInfo sourceId (pySet infoMap title
        { first_time := oldInfo.first_time
          last_time := timeInfo
          count := oldInfo.count + 1
          ranks := oldInfo.ranks ++ obs.ranks
          url := if oldInfo.url = "" then obs.url else oldInfo.url
          mobileUrl := if oldInfo.mobileUrl = "" then obs.mobileUrl else oldInfo.mobileUrl }),
      ?_,
      ⟨_, pyGet_pySet_same _ _ _, pyGet_pySet_same _ _ _⟩,
      ⟨_, pyGet_pySet_same _ _ _, pyGet_pySet_same _ _ _⟩⟩
  rw [processSourceData, hsm]
  simp only [List.foldl_cons, List.foldl_nil, mergeTitleStep, hsm, Option.getD_some,
    Option.bind_eq_bind, Option.some_bind, hod, him, hoi, hsync]

/-- Witness for C3 on a one-platform, one-title state with an empty stored
`url` being filled by the observation. -/
theorem processSourceData_merges_existing_witness :
    ∃ ar ti,
      processSourceData "zhihu" [("A", ⟨[4], "u2", "m2"⟩)] "11时"
          [("zhihu", [("A", ⟨[1], "", "m1"⟩)])]
          [("zhihu", [("A", ⟨"10时", "10时", 1, [1], "", "m1"⟩)])] =
        some (ar, ti) ∧
      (∃ sm, pyGet ar "zhihu" = some sm ∧
          pyGet sm "A" = some { ranks := [1] ++ [4], url := "", mobileUrl := "m1" }) ∧
      (∃ im, pyGet ti "zhihu" = some im ∧
          pyGet im "A" = some
            { first_time := "10时"
              last_time := "11时"
              count := 1 + 1
              ranks := [1] ++ [4]
              url := if ("" : String) = "" then "u2" else ""
              mobileUrl := if ("m1" : String) = "" then "m2" else "m1" }) :=
  processSourceData_merges_existing "zhihu" "11时" "A" ⟨[4], "u2", "m2"⟩
    [("zhihu", [("A", ⟨[1], "", "m1"⟩)])]
    [("zhihu", [("A", ⟨"10时", "10时", 1, [1], "", "m1"⟩)])]
    [("A", ⟨[1], "", "m1"⟩)] [("A", ⟨"10时", "10时", 1, [1], "", "m1"⟩)]
    ⟨[1], "", "m1"⟩ ⟨"10时", "10时", 1, [1], "", "m1"⟩
    (by decide) (by decide) (by decide) (by decide) rfl

/-! ### C7: percentage of each emitted word-group statistic -/

theorem foldl_append_singleton {α β : Type} (f : α → β) (l : List α) (acc : List β) :
    l.foldl (fun a x => a ++ [f x]) acc = acc ++ l.map f := by
  induction l generalizing acc with
  | nil => simp
  | cons x xs ih => simp [ih, List.append_assoc]

/-- C7 — Every `WordGroupStatistic` produced by `_generate_statistics`
carries `percentage = round(count / total_matched * 100, 2)` computed from
its own `count` field, and 0 when the total is 0. -/
theorem generateStatistics_percentage (cfg : RankConfig)
    (wordStats : List (String × GroupStat)) (totalTitles : Nat)
    (stat : WordGroupStatistic)
    (hmem : stat ∈ generateStatistics cfg wordStats totalTitles) :
    stat.percentage =
      if 0 < totalTitles then pyRound2 ((stat.count : ℚ) / totalTitles * 100) else 0 := by
  rw [generateStatistics] at hmem
  rw [List.mem_mergeSort, foldl_append_singleton (buildGroupStatistic cfg totalTitles)
    wordStats [], List.nil_append, List.mem_map] at hmem
  obtain ⟨entry, _, hstat⟩ := hmem
  rw [← hstat]
  rfl

/-- Witness for C7: one group with count 1 out of 2 matched records has
percentage 50. -/
theorem generateStatistics_percentage_witness :
    (⟨"g", 1, [], 50⟩ : WordGroupStatistic).percentage =
      if 0 < 2 then pyRound2 (((⟨"g", 1, [], 50⟩ : WordGroupStatistic).count : ℚ) / 2 * 100)
      else 0 :=
  generateStatistics_percentage defaultRankConfig [("g", ⟨1, []⟩)] 2 ⟨"g", 1, [], 50⟩
    (by
      have heq : generateStatistics defaultRankConfig [("g", ⟨1, []⟩)] 2 =
          [⟨"g", 1, [], 50⟩] := by
        simp [generateStatistics, buildGroupStatistic, List.mergeSort]
        norm_num [pyRound2, roundHalfEven]
      rw [heq]
      exact List.mem_singleton.mpr rfl)

/-! ### C2: lemmas about the increment detector's data structures -/

theorem mem_setAdd (s : List String) (k t : String) :
    t ∈ setAdd s k ↔ t ∈ s ∨ t = k := by
  rw [setAdd]
  by_cases hk : k ∈ s
  · rw [if_pos hk]
    constructor
    · exact fun h => Or.inl h
    · rintro (h | rfl) <;> assumption
  · rw [if_neg hk]
    simp

theorem mem_foldl_setAdd (keys : List String) (s : List String) (t : String) :
    t ∈ keys.foldl setAdd s ↔ t ∈ s ∨ t ∈ keys := by
  induction keys generalizing s with
  | nil => simp
  | cons k ks ih =>
      rw [List.foldl_cons, ih, mem_setAdd]
      simp only [List.mem_cons]
      tauto

theorem pyGet_isSome_iff {α : Type} (d : List (String × α)) (k : String) :
    (pyGet d k).isSome = true ↔ k ∈ d.map Prod.fst := by
  induction d with
  | nil => simp [pyGet]
  | cons e rest ih =>
      by_cases hk : e.1 = k
      · simp [pyGet, hk]
      · rw [pyGet, if_neg hk]
        simp only [List.map_cons, List.mem_cons, ih]
        constructor
        · exact fun h => Or.inr h
        · rintro (rfl | h)
          · exact absurd rfl hk
          · exact h

theorem pyGet_filter_notMem_isSome (b : Bucket) (hs : List String) (t : String) :
    (pyGet (b.filter (fun q => decide (q.1 ∉ hs))) t).isSome =
      ((pyGet b t).isSome && decide (t ∉ hs)) := by
  induction b with
  | nil => simp [pyGet]
  | cons e rest ih =>
      rw [List.filter_cons]
      by_cases hin : e.1 ∈ hs
      · rw [if_neg (by simpa using hin)]
        by_cases hk : e.1 = t
        · subst hk
          rw [ih, pyGet, if_pos rfl]
          simp [hin]
        · rw [ih, pyGet, if_neg hk]
      · rw [if_pos (by simpa using hin)]
        by_cases hk : e.1 = t
        · subst hk
          rw [pyGet, if_pos rfl, pyGet, if_pos rfl]
          simp [hin]
        · rw [pyGet, if_neg hk, pyGet, if_neg hk, ih]

theorem mem_histAddFile (file : TitlesById) (hist : List (String × List String))
    (hfnd : (file.map Prod.fst).Nodup) (p t : String) :
    t ∈ (pyGet (histAddFile hist file) p).getD [] ↔
      t ∈ (pyGet hist p).getD [] ∨ hasTitle file p t = true := by
  induction file generalizing hist with
  | nil => simp [histAddFile, hasTitle, pyGet]
  | cons e rest ih =>
      obtain ⟨k, bucket⟩ := e
      simp only [List.map_cons, List.nodup_cons] at hfnd
      have hstep : histAddFile hist ((k, bucket) :: rest) =
          histAddFile
            (pySet hist k ((bucket.map Prod.fst).foldl setAdd ((pyGet hist k).getD []))) rest := by
        rfl
      rw [hstep, ih _ hfnd.2]
      by_cases hp : p = k
      · subst hp
        rw [pyGet_pySet_same]
        have hrest : hasTitle rest p t = false := by
          rw [hasTitle, pyGet_eq_none_of_not_mem rest p hfnd.1]
        rw [hrest]
        simp only [Option.getD_some, mem_foldl_setAdd, hasTitle, pyGet, if_pos rfl]
        rw [← pyGet_isSome_iff]
        tauto
      · rw [pyGet_pySet_ne hist k p _ (fun h => hp h.symm)]
        have : hasTitle ((k, bucket) :: rest) p t = hasTitle rest p t := by
          rw [hasTitle, hasTitle, pyGet, if_neg (fun h => hp h.symm)]
        rw [this]

theorem mem_histFold (files : List TitlesById) (hist : List (String × List String))
    (hnd : ∀ f ∈ files, (f.map Prod.fst).Nodup) (p t : String) :
    t ∈ (pyGet (files.foldl histAddFile hist) p).getD [] ↔
      t ∈ (pyGet hist p).getD [] ∨ ∃ f ∈ files, hasTitle f p t = true := by
  induction files generalizing hist with
  | nil => simp
  | cons f fs ih =>
      rw [List.foldl_cons, ih _ (fun g hg => hnd g (List.mem_cons_of_mem f hg)),
        mem_histAddFile f hist (hnd f (List.mem_cons_self f fs))]
      simp only [List.mem_cons]
      constructor
      · rintro ((h | h) | ⟨g, hg, h⟩)
        · exact Or.inl h
        · exact Or.inr ⟨f, Or.inl rfl, h⟩
        · exact Or.inr ⟨g, Or.inr hg, h⟩
      · rintro (h | ⟨g, rfl | hg, h⟩)
        · exact Or.inl (Or.inl h)
        · exact Or.inl (Or.inr h)
        · exact Or.inr ⟨g, hg, h⟩

theorem pyGet_append_none {α : Type} (l1 l2 : List (String × α)) (k : String)
    (h : pyGet l1 k = none) : pyGet (l1 ++ l2) k = pyGet l2 k := by
  induction l1 with
  | nil => rfl
  | cons e rest ih =>
      rw [pyGet] at h
      rw [List.cons_append, pyGet]
      by_cases hk : e.1 = k
      · rw [if_pos hk] at h
        exact absurd h (by simp)
      · rw [if_neg hk] at h ⊢
        exact ih h

theorem newTitlesStep_acc (hist : List (String × List String)) (acc : TitlesById)
    (p : String × Bucket) :
    newTitlesStep hist acc p = acc ++ newTitlesStep hist [] p := by
  rw [newTitlesStep, newTitlesStep]
  by_cases h : (p.2.filter (fun q => decide (q.1 ∉ (pyGet hist p.1).getD []))) = []
  · rw [if_pos h, if_pos h, List.append_nil]
  · rw [if_neg h, if_neg h, List.nil_append]

theorem newTitlesFold_acc (hist : List (String × List String)) (l : TitlesById)
    (acc : TitlesById) :
    l.foldl (newTitlesStep hist) acc = acc ++ l.foldl (newTitlesStep hist) [] := by
  induction l generalizing acc with
  | nil => simp
  | cons p ps ih =>
      rw [List.foldl_cons, List.foldl_cons, ih (newTitlesStep hist acc p),
        ih (newTitlesStep hist [] p), newTitlesStep_acc hist acc p, List.append_assoc]

theorem keys_newTitlesFold (hist : List (String × List String)) (l : TitlesById) :
    ∀ q ∈ l.foldl (newTitlesStep hist) [], q.1 ∈ l.map Prod.fst := by
  induction l with
  | nil => simp
  | cons p ps ih =>
      intro q hq
      rw [List.foldl_cons, newTitlesFold_acc] at hq
      rcases List.mem_append.mp hq with h | h
      · simp only [newTitlesStep] at h
        by_cases hc : (p.2.filter (fun q => decide (q.1 ∉ (pyGet hist p.1).getD []))) = []
        · rw [if_pos hc] at h
          exact absurd h (List.not_mem_nil q)
        · rw [if_neg hc, List.nil_append, List.mem_singleton] at h
          rw [h]
          exact List.mem_cons_self _ _
      · exact List.mem_cons_of_mem _ (ih q h)

theorem pyGet_newTitlesFold_none (hist : List (String × List String)) (l : TitlesById)
    (p : String) (h : p ∉ l.map Prod.fst) :
    pyGet (l.foldl (newTitlesStep hist) []) p = none := by
  refine pyGet_eq_none_of_not_mem _ _ (fun hmem => h ?_)
  obtain ⟨q, hq, hq1⟩ := List.mem_map.mp hmem
  exact hq1 ▸ keys_newTitlesFold hist l q hq

theorem pyGet_newTitlesFold_some (hist : List (String × List String)) (l : TitlesById)
    (hnd : (l.map Prod.fst).Nodup) (p : String) (bucket : Bucket)
    (hb : pyGet l p = some bucket) :
    pyGet (l.foldl (newTitlesStep hist) []) p =
      (if (bucket.filter (fun q => decide (q.1 ∉ (pyGet hist p).getD []))) = [] then none
       else some (bucket.filter (fun q => decide (q.1 ∉ (pyGet hist p).getD [])))) := by
  induction l with
  | nil => simp [pyGet] at hb
  | cons e ps ih =>
      obtain ⟨k, b⟩ := e
      simp only [List.map_cons, List.nodup_cons] at hnd
      rw [List.foldl_cons, newTitlesFold_acc]
      rw [pyGet] at hb
      by_cases hk : k = p
      · rw [if_pos hk] at hb
        injection hb with hb
        subst hb
        subst hk
        simp only [newTitlesStep]
        by_cases hsn : (b.filter (fun q => decide (q.1 ∉ (pyGet hist k).getD []))) = []
        · rw [if_pos hsn, if_pos hsn, List.nil_append]
          exact pyGet_newTitlesFold_none hist ps k hnd.1
        · rw [if_neg hsn, if_neg hsn, List.nil_append, List.singleton_append, pyGet,
            if_pos rfl]
      · rw [if_neg hk] at hb
        have hhead : pyGet (newTitlesStep hist [] (k, b)) p = none := by
          simp only [newTitlesStep]
          by_cases hc : (b.filter (fun q => decide (q.1 ∉ (pyGet hist k).getD []))) = []
          · rw [if_pos hc]
            rfl
          · rw [if_neg hc, List.nil_append, pyGet, if_neg hk]
            rfl
        rw [pyGet_append_none _ _ _ hhead]
        exact ih hnd.2 hb

theorem filterByIds_none_eq : filterByIds none = fun d => d := by
  funext d
  rfl

/-- C2 — With at least two snapshots, `detect_latest_new_titles` reports a
`(platform, title)` pair iff the title is in the last snapshot's bucket for
that platform and in no earlier snapshot's bucket for it; in particular it
never flags a title that appeared before the last snapshot.  The snapshots
are parsed dicts, so their platform keys are duplicate-free. -/
theorem detectLatestNewTitles_new_iff (snapshots : List TitlesById)
    (hlen : 2 ≤ snapshots.length)
    (hnd : ∀ s ∈ snapshots, (s.map Prod.fst).Nodup) (p t : String) :
    hasTitle (detectLatestNewTitles snapshots none) p t = true ↔
      (hasTitle ((snapshots.getLast?).getD []) p t = true ∧
        ∀ s ∈ snapshots.dropLast, hasTitle s p t = false) := by
  have hne : snapshots ≠ [] := by
    intro h
    rw [h] at hlen
    simp at hlen
  have hlast_mem : (snapshots.getLast?).getD [] ∈ snapshots := by
    rw [List.getLast?_eq_getLast snapshots hne, Option.getD_some]
    exact List.getLast_mem hne
  have hdropsub : ∀ s ∈ snapshots.dropLast, s ∈ snapshots :=
    fun s hs => List.dropLast_subset snapshots hs
  have hLnd : (((snapshots.getLast?).getD []).map Prod.fst).Nodup := hnd _ hlast_mem
  have hall : (∀ s ∈ snapshots.dropLast, hasTitle s p t = false) ↔
      ¬ ∃ s ∈ snapshots.dropLast, hasTitle s p t = true := by
    constructor
    · rintro h ⟨s, hs, hts⟩
      rw [h s hs] at hts
      exact Bool.false_ne_true hts
    · intro h s hs
      cases hts : hasTitle s p t with
      | false => rfl
      | true => exact absurd ⟨s, hs, hts⟩ h
  have hhist : t ∈ (pyGet (snapshots.dropLast.foldl histAddFile []) p).getD [] ↔
      ∃ s ∈ snapshots.dropLast, hasTitle s p t = true := by
    rw [mem_histFold snapshots.dropLast [] (fun f hf => hnd f (hdropsub f hf)) p t]
    simp [pyGet]
  rw [detectLatestNewTitles, if_neg (show ¬ snapshots.length < 2 by omega)]
  simp only [filterByIds_none_eq, List.map_id']
  cases hb : pyGet ((snapshots.getLast?).getD []) p with
  | none =>
      have hnotmem : p ∉ (((snapshots.getLast?).getD []).map Prod.fst) := by
        intro hmem
        have hsome := (pyGet_isSome_iff ((snapshots.getLast?).getD []) p).mpr hmem
        rw [hb] at hsome
        exact Bool.false_ne_true hsome
      have hout : hasTitle (((snapshots.getLast?).getD []).foldl
          (newTitlesStep (snapshots.dropLast.foldl histAddFile [])) []) p t = false := by
        rw [hasTitle, pyGet_newTitlesFold_none _ _ _ hnotmem]
      have hlastf : hasTitle ((snapshots.getLast?).getD []) p t = false := by
        rw [hasTitle, hb]
      rw [hout, hlastf]
      simp
  | some bucket =>
      have hres := pyGet_newTitlesFold_some (snapshots.dropLast.foldl histAddFile [])
        ((snapshots.getLast?).getD []) hLnd p bucket hb
      have hlastT : hasTitle ((snapshots.getLast?).getD []) p t =
          (pyGet bucket t).isSome := by
        rw [hasTitle, hb]
      by_cases hsn : (bucket.filter
          (fun q => decide (q.1 ∉ (pyGet (snapshots.dropLast.foldl histAddFile []) p).getD []))) = []
      · have hout : hasTitle (((snapshots.getLast?).getD []).foldl
            (newTitlesStep (snapshots.dropLast.foldl histAddFile [])) []) p t = false := by
          rw [hasTitle, hres, if_pos hsn]
        rw [hout, hlastT, hall]
        constructor
        · intro h
          exact absurd h Bool.false_ne_true
        · rintro ⟨hsome, hnone⟩
          exfalso
          have htnot : t ∉ (pyGet (snapshots.dropLast.foldl histAddFile []) p).getD [] :=
            fun hmem => hnone (hhist.mp hmem)
          have hfil := pyGet_filter_notMem_isSome bucket
            ((pyGet (snapshots.dropLast.foldl histAddFile []) p).getD []) t
          rw [hsn, hsome, decide_eq_true htnot, Bool.and_self] at hfil
          simp [pyGet] at hfil
      · have hout : hasTitle (((snapshots.getLast?).getD []).foldl
            (newTitlesStep (snapshots.dropLast.foldl histAddFile [])) []) p t =
            (pyGet (bucket.filter (fun q =>
              decide (q.1 ∉ (pyGet (snapshots.dropLast.foldl histAddFile []) p).getD []))) t).isSome := by
          rw [hasTitle, hres, if_neg hsn]
        rw [hout, hlastT, hall, pyGet_filter_notMem_isSome, Bool.and_eq_true,
          decide_eq_true_iff, hhist]

/-- Witness for C2 on the specification's scenario
(`zhihu: [A@1, B@2]` then `zhihu: [A@1, C@3]`), at the pair `(zhihu, C)`. -/
theorem detectLatestNewTitles_new_iff_witness :
    hasTitle
        (detectLatestNewTitles
          [[("zhihu", [("A", ⟨[1], "", ""⟩), ("B", ⟨[2], "", ""⟩)])],
            [("zhihu", [("A", ⟨[1], "", ""⟩), ("C", ⟨[3], "", ""⟩)])]] none)
        "zhihu" "C" = true ↔
      (hasTitle
          (([[("zhihu", [("A", ⟨[1], "", ""⟩), ("B", ⟨[2], "", ""⟩)])],
              [("zhihu", [("A", ⟨[1], "", ""⟩), ("C", ⟨[3], "", ""⟩)])]].getLast?).getD [])
          "zhihu" "C" = true ∧
        ∀ s ∈ [[("zhihu", [("A", ⟨[1], "", ""⟩), ("B", ⟨[2], "", ""⟩)])],
            [("zhihu", [("A", ⟨[1], "", ""⟩), ("C", ⟨[3], "", ""⟩)])]].dropLast,
          hasTitle s "zhihu" "C" = false) :=
  detectLatestNewTitles_new_iff
    [[("zhihu", [("A", ⟨[1], "", ""⟩), ("B", ⟨[2], "", ""⟩)])],
      [("zhihu", [("A", ⟨[1], "", ""⟩), ("C", ⟨[3], "", ""⟩)])]]
    (by decide) (by decide) "zhihu" "C"

/-! ### C1 and C6: the batch splitter -/

set_option maxRecDepth 200000 in
/-- C1 counterexample — at `max_bytes = 600`, a report whose single word-group
section is oversized makes the splitter emit a message of more than 600 UTF-8
bytes, refuting the unconditional byte bound. -/
theorem splitContentIntoBatches_exceeds_maxBytes :
    ((splitContentIntoBatches oversizeReport "ntfy" none 600 "daily"
        "2026-01-01 00:00:00").any (fun b => decide (600 < bytesLen b))) = true := by
  decide

set_option maxRecDepth 200000 in
/-- C6 counterexample — on the same oversized report the very first emitted
message is exactly header ++ footer: the mid-loop flush condition
(`current_batch.strip()`) is satisfied by the bare header, so a current
message holding only the header IS flushed when the first section overflows. -/
theorem splitContentIntoBatches_emits_bare_header :
    (splitContentIntoBatches oversizeReport "ntfy" none 600 "daily"
        "2026-01-01 00:00:00").head? =
      some (buildHeader oversizeReport.stats "ntfy" ++
        buildFooter none "ntfy" "daily" "2026-01-01 00:00:00") := by
  decide

theorem bytesLen_append (a b : String) : bytesLen (a ++ b) = bytesLen a + bytesLen b := by
  rw [bytesLen, bytesLen, bytesLen, String.data_append, List.map_append, List.sum_append]

theorem lenZ_append (a b : String) : lenZ (a ++ b) = lenZ a + lenZ b := by
  rw [lenZ, lenZ, lenZ, bytesLen_append]
  push_cast
  rfl

theorem dropWhile_forall_iff (p : Char → Bool) (l : List Char) :
    (∀ c ∈ l.dropWhile p, p c) ↔ ∀ c ∈ l, p c := by
  induction l with
  | nil => simp
  | cons a t ih =>
      rw [List.dropWhile_cons]
      by_cases ha : p a
      · rw [if_pos ha, ih]
        constructor
        · intro h c hc
          rcases List.mem_cons.mp hc with rfl | hc
          · exact ha
          · exact h c hc
        · intro h c hc
          exact h c (List.mem_cons_of_mem a hc)
      · rw [if_neg ha]

theorem pyStrip_eq_empty_iff (s : String) :
    pyStrip s = "" ↔ ∀ c ∈ s.data, pyIsSpace c := by
  rw [pyStrip]
  have hdata : (⟨((s.data.dropWhile pyIsSpace).reverse.dropWhile pyIsSpace).reverse⟩ :
      String) = "" ↔
      ((s.data.dropWhile pyIsSpace).reverse.dropWhile pyIsSpace).reverse = [] := by
    constructor
    · intro h
      exact congrArg String.data h
    · intro h
      rw [h]
  rw [hdata, List.reverse_eq_nil_iff, List.dropWhile_eq_nil_iff]
  constructor
  · intro h
    rw [← dropWhile_forall_iff pyIsSpace s.data]
    intro c hc
    exact h c (List.mem_reverse.mpr hc)
  · intro h c hc
    exact (dropWhile_forall_iff pyIsSpace s.data).mpr h c (List.mem_reverse.mp hc)

theorem pyStrip_append_ne (h x : String) (hh : pyStrip h ≠ "") :
    pyStrip (h ++ x) ≠ "" := by
  rw [Ne, pyStrip_eq_empty_iff] at hh ⊢
  intro hall
  refine hh (fun c hc => hall c ?_)
  rw [String.data_append]
  exact List.mem_append_left _ hc

theorem header_shape_not_all_space (pre mid post : String) (hpre : '📊' ∈ pre.data) :
    ¬ ∀ c ∈ (pre ++ mid ++ post).data, pyIsSpace c := fun hall =>
  absurd
    (hall '📊' (by
      rw [String.data_append, String.data_append]
      exact List.mem_append_left _ (List.mem_append_left _ hpre)))
    (by decide)

theorem buildHeader_nonblank (stats : List ReportStat) (platform : String) :
    pyStrip (buildHeader stats platform) ≠ "" := by
  rw [Ne, pyStrip_eq_empty_iff, buildHeader]
  by_cases h1 : platform = "feishu"
  · rw [if_pos h1]
    exact header_shape_not_all_space _ _ _ (by decide)
  · rw [if_neg h1]
    by_cases h2 : platform = "dingtalk" ∨ platform = "wework"
    · rw [if_pos h2]
      exact header_shape_not_all_space _ _ _ (by decide)
    · rw [if_neg h2]
      by_cases h3 : platform = "telegram"
      · rw [if_pos h3]
        exact header_shape_not_all_space _ _ _ (by decide)
      · rw [if_neg h3]
        exact header_shape_not_all_space _ _ _ (by decide)

theorem splitStep_invariant (maxBytes S : ℤ) (baseFooter header sec : String)
    (hSF : S + lenZ baseFooter ≤ maxBytes)
    (hhdr : pyStrip header ≠ "")
    (hsec : lenZ header + lenZ sec ≤ S)
    (st : List String × String)
    (hbatches : ∀ b ∈ st.1, lenZ b ≤ maxBytes)
    (hcur : lenZ st.2 ≤ S)
    (hext : ∃ x, st.2 = header ++ x) :
    (∀ b ∈ (splitStep S baseFooter header st sec).1, lenZ b ≤ maxBytes) ∧
      lenZ (splitStep S baseFooter header st sec).2 ≤ S ∧
      ∃ x, (splitStep S baseFooter header st sec).2 = header ++ x := by
  obtain ⟨x, hx⟩ := hext
  rw [splitStep]
  by_cases hc : lenZ st.2 + lenZ sec > S ∧ pyStrip st.2 ≠ ""
  · rw [if_pos hc]
    refine ⟨?_, by rw [lenZ_append]; exact hsec, sec, rfl⟩
    intro b hb
    rcases List.mem_append.mp hb with hb | hb
    · exact hbatches b hb
    · rw [List.mem_singleton] at hb
      subst hb
      rw [lenZ_append]
      linarith
  · rw [if_neg hc]
    have hstrip : pyStrip st.2 ≠ "" := hx ▸ pyStrip_append_ne header x hhdr
    have hle : lenZ st.2 + lenZ sec ≤ S := by
      by_contra hgt
      exact hc ⟨by linarith, hstrip⟩
    refine ⟨hbatches, by rw [lenZ_append]; exact hle, x ++ sec, ?_⟩
    rw [hx, String.append_assoc]

theorem statsFold_invariant (maxBytes S : ℤ) (baseFooter header platform : String)
    (stats : List ReportStat)
    (hSF : S + lenZ baseFooter ≤ maxBytes)
    (hhdr : pyStrip header ≠ "")
    (hstats : ∀ stat ∈ stats, ¬ stat.count ≤ 0 →
        lenZ header + lenZ (buildStatSection stat platform) ≤ S)
    (st : List String × String)
    (hbatches : ∀ b ∈ st.1, lenZ b ≤ maxBytes)
    (hcur : lenZ st.2 ≤ S)
    (hext : ∃ x, st.2 = header ++ x) :
    (∀ b ∈ (stats.foldl
        (fun (st : List String × String) stat =>
          if stat.count ≤ 0 then st
          else splitStep S baseFooter header st (buildStatSection stat platform)) st).1,
        lenZ b ≤ maxBytes) ∧
      lenZ (stats.foldl
        (fun (st : List String × String) stat =>
          if stat.count ≤ 0 then st
          else splitStep S baseFooter header st (buildStatSection stat platform)) st).2 ≤ S ∧
      ∃ x, (stats.foldl
        (fun (st : List String × String) stat =>
          if stat.count ≤ 0 then st
          else splitStep S baseFooter header st (buildStatSection stat platform)) st).2 =
        header ++ x := by
  induction stats generalizing st with
  | nil => exact ⟨hbatches, hcur, hext⟩
  | cons stat rest ih =>
      rw [List.foldl_cons]
      by_cases hcnt : stat.count ≤ 0
      · rw [if_pos hcnt]
        exact ih (fun s hs => hstats s (List.mem_cons_of_mem stat hs)) st hbatches hcur hext
      · rw [if_neg hcnt]
        obtain ⟨h1, h2, h3⟩ := splitStep_invariant maxBytes S baseFooter header
          (buildStatSection stat platform) hSF hhdr
          (hstats stat (List.mem_cons_self stat rest) hcnt) st hbatches hcur hext
        exact ih (fun s hs => hstats s (List.mem_cons_of_mem stat hs)) _ h1 h2 h3

/-- C1 amended — every message emitted by `split_content_into_batches` fits
in `max_bytes`, PROVIDED the header and each rendered section (word-group or
new-items) together fit in the working budget
`max_bytes - footer - 500` and the failed-platform section stays within the
500-byte safety margin.  Without that proviso the bound fails (an oversized
single section is emitted unsplit, as documented in the spec's §4.6
tradeoff). -/
theorem splitContentIntoBatches_bounded (reportData : ReportData) (platform : String)
    (updateInfo : Option String) (maxBytes : ℤ) (mode timestamp : String)
    (hH : lenZ (buildHeader reportData.stats platform) ≤
        maxBytes - lenZ (buildFooter updateInfo platform mode timestamp) - 500)
    (hstats : ∀ stat ∈ reportData.stats, ¬ stat.count ≤ 0 →
        lenZ (buildHeader reportData.stats platform) +
          lenZ (buildStatSection stat platform) ≤
          maxBytes - lenZ (buildFooter updateInfo platform mode timestamp) - 500)
    (hnew : reportData.new_titles ≠ [] →
        lenZ (buildHeader reportData.stats platform) +
          lenZ (buildNewTitlesSection reportData.new_titles platform) ≤
          maxBytes - lenZ (buildFooter updateInfo platform mode timestamp) - 500)
    (hfail : lenZ (buildFailedSection reportData.failed_ids platform) ≤ 500) :
    ∀ b ∈ splitContentIntoBatches reportData platform updateInfo maxBytes mode timestamp,
      lenZ b ≤ maxBytes := by
  intro b hb
  set F := buildFooter updateInfo platform mode timestamp with hF
  set HDR := buildHeader reportData.stats platform with hHDR
  set S := maxBytes - lenZ F - 500 with hS
  have hSF : S + lenZ F ≤ maxBytes := by
    rw [hS]
    linarith
  obtain ⟨h1, h2, h3⟩ := statsFold_invariant maxBytes S F HDR platform reportData.stats
    hSF (hHDR ▸ buildHeader_nonblank reportData.stats platform) hstats ([], HDR)
    (fun s hs => absurd hs (List.not_mem_nil s)) hH ⟨"", (String.append_empty _).symm⟩
  set ST1 := reportData.stats.foldl
      (fun (st : List String × String) stat =>
        if stat.count ≤ 0 then st
        else splitStep S F HDR st (buildStatSection stat platform))
      ([], HDR) with hST1
  set ST2 := if reportData.new_titles ≠ [] then
      splitStep S F HDR ST1 (buildNewTitlesSection reportData.new_titles platform)
    else ST1 with hST2
  have hg : (∀ x ∈ ST2.1, lenZ x ≤ maxBytes) ∧ lenZ ST2.2 ≤ S ∧ ∃ x, ST2.2 = HDR ++ x := by
    rw [hST2]
    by_cases hnt : reportData.new_titles ≠ []
    · rw [if_pos hnt]
      exact splitStep_invariant maxBytes S F HDR
        (buildNewTitlesSection reportData.new_titles platform) hSF
        (hHDR ▸ buildHeader_nonblank reportData.stats platform) (hnew hnt) ST1 h1 h2 h3
    · rw [if_neg hnt]
      exact ⟨h1, h2, h3⟩
  obtain ⟨g1, g2, _⟩ := hg
  set CUR := if reportData.failed_ids ≠ [] then
      ST2.2 ++ buildFailedSection reportData.failed_ids platform
    else ST2.2 with hCUR
  have hunfold : splitContentIntoBatches reportData platform updateInfo maxBytes mode
      timestamp =
      (if pyStrip CUR ≠ pyStrip HDR then ST2.1 ++ [CUR ++ F] else ST2.1) := by
    rw [hCUR, hST2, hST1, hS, hHDR, hF]
    rfl
  rw [hunfold] at hb
  have hcurlen : lenZ CUR ≤ S + 500 := by
    rw [hCUR]
    by_cases hf : reportData.failed_ids ≠ []
    · rw [if_pos hf, lenZ_append]
      linarith
    · rw [if_neg hf]
      linarith
  by_cases hcond : pyStrip CUR ≠ pyStrip HDR
  · rw [if_pos hcond] at hb
    rcases List.mem_append.mp hb with hb | hb
    · exact g1 b hb
    · rw [List.mem_singleton] at hb
      subst hb
      rw [lenZ_append]
      rw [hS] at hcurlen
      linarith
  · rw [if_neg hcond] at hb
    exact g1 b hb

set_option maxRecDepth 100000 in
/-- Witness for C1's amended bound: a small report on a 20000-byte budget. -/
theorem splitContentIntoBatches_bounded_witness :
    lenZ ((splitContentIntoBatches smallReport "ntfy" none 20000 "daily"
        "2026-01-01 00:00:00").headD "") ≤ 20000 :=
  splitContentIntoBatches_bounded smallReport "ntfy" none 20000 "daily"
    "2026-01-01 00:00:00" (by decide) (by decide) (by decide) (by decide)
    ((splitContentIntoBatches smallReport "ntfy" none 20000 "daily"
        "2026-01-01 00:00:00").headD "")
    (by decide)

theorem splitStep_batches_grow (S : ℤ) (f h : String) (st : List String × String)
    (sec : String) :
    ∃ t, (splitStep S f h st sec).1 = st.1 ++ t := by
  rw [splitStep]
  by_cases hc : lenZ st.2 + lenZ sec > S ∧ pyStrip st.2 ≠ ""
  · rw [if_pos hc]
    exact ⟨[st.2 ++ f], rfl⟩
  · rw [if_neg hc]
    exact ⟨[], (List.append_nil _).symm⟩

theorem statsFold_batches_grow (S : ℤ) (f h platform : String)
    (stats : List ReportStat) (st : List String × String) :
    ∃ t, (stats.foldl
        (fun (st : List String × String) stat =>
          if stat.count ≤ 0 then st
          else splitStep S f h st (buildStatSection stat platform)) st).1 = st.1 ++ t := by
  induction stats generalizing st with
  | nil => exact ⟨[], (List.append_nil _).symm⟩
  | cons stat rest ih =>
      rw [List.foldl_cons]
      by_cases hcnt : stat.count ≤ 0
      · rw [if_pos hcnt]
        exact ih st
      · rw [if_neg hcnt]
        obtain ⟨t1, ht1⟩ := splitStep_batches_grow S f h st (buildStatSection stat platform)
        obtain ⟨t2, ht2⟩ := ih (splitStep S f h st (buildStatSection stat platform))
        exact ⟨t1 ++ t2, by rw [ht2, ht1, List.append_assoc]⟩

/-- C6 amended — the mid-loop flush condition is only "appending would
exceed the working budget AND `current_batch.strip()` is non-empty"; the
bare header is itself non-blank, so when the first non-skipped word-group
section already overflows the budget, the splitter flushes the header-only
current message: the first emitted message is exactly header ++ footer.
(Only the final emission compares against the bare header.) -/
theorem splitContentIntoBatches_first_overflow_emits_header (reportData : ReportData)
    (platform : String) (updateInfo : Option String) (maxBytes : ℤ)
    (mode timestamp : String) (stat : ReportStat) (rest : List ReportStat)
    (hshape : reportData.stats = stat :: rest)
    (hcnt : ¬ stat.count ≤ 0)
    (hover : lenZ (buildHeader reportData.stats platform) +
        lenZ (buildStatSection stat platform) >
        maxBytes - lenZ (buildFooter updateInfo platform mode timestamp) - 500) :
    (splitContentIntoBatches reportData platform updateInfo maxBytes mode
        timestamp).head? =
      some (buildHeader reportData.stats platform ++
        buildFooter updateInfo platform mode timestamp) := by
  set F := buildFooter updateInfo platform mode timestamp with hF
  set HDR := buildHeader reportData.stats platform with hHDR
  set S := maxBytes - lenZ F - 500 with hS
  have hfirst : splitStep S F HDR ([], HDR) (buildStatSection stat platform) =
      ([HDR ++ F], HDR ++ buildStatSection stat platform) := by
    rw [splitStep,
      if_pos ⟨hover, hHDR ▸ buildHeader_nonblank reportData.stats platform⟩]
    rfl
  set ST1 := reportData.stats.foldl
      (fun (st : List String × String) stat =>
        if stat.count ≤ 0 then st
        else splitStep S F HDR st (buildStatSection stat platform))
      ([], HDR) with hST1
  obtain ⟨t1, ht1⟩ := statsFold_batches_grow S F HDR platform rest
    ([HDR ++ F], HDR ++ buildStatSection stat platform)
  have hST1head : ST1.1 = [HDR ++ F] ++ t1 := by
    rw [hST1, hshape, List.foldl_cons, if_neg hcnt, hfirst]
    exact ht1
  set ST2 := if reportData.new_titles ≠ [] then
      splitStep S F HDR ST1 (buildNewTitlesSection reportData.new_titles platform)
    else ST1 with hST2
  obtain ⟨t2, ht2⟩ : ∃ t2, ST2.1 = ST1.1 ++ t2 := by
    rw [hST2]
    by_cases hnt : reportData.new_titles ≠ []
    · rw [if_pos hnt]
      exact splitStep_batches_grow S F HDR ST1
        (buildNewTitlesSection reportData.new_titles platform)
    · rw [if_neg hnt]
      exact ⟨[], (List.append_nil _).symm⟩
  set CUR := if reportData.failed_ids ≠ [] then
      ST2.2 ++ buildFailedSection reportData.failed_ids platform
    else ST2.2 with hCUR
  have hunfold : splitContentIntoBatches reportData platform updateInfo maxBytes mode
      timestamp =
      (if pyStrip CUR ≠ pyStrip HDR then ST2.1 ++ [CUR ++ F] else ST2.1) := by
    rw [hCUR, hST2, hST1, hS, hHDR, hF]
    rfl
  rw [hunfold]
  have hhead : ST2.1 = (HDR ++ F) :: (t1 ++ t2) := by
    rw [ht2, hST1head, List.singleton_append, List.cons_append]
  by_cases hcond : pyStrip CUR ≠ pyStrip HDR
  · rw [if_pos hcond, hhead, List.cons_append, List.head?_cons]
  · rw [if_neg hcond, hhead, List.head?_cons]

set_option maxRecDepth 100000 in
/-- Witness for C6's amended behavior: at `max_bytes = 100` even a small
first section overflows the (negative) working budget, and the first emitted
message is exactly header ++ footer. -/
theorem splitContentIntoBatches_first_overflow_emits_header_witness :
    (splitContentIntoBatches smallReport "ntfy" none 100 "daily"
        "2026-01-01 00:00:00").head? =
      some (buildHeader smallReport.stats "ntfy" ++
        buildFooter none "ntfy" "daily" "2026-01-01 00:00:00") :=
  splitContentIntoBatches_first_overflow_emits_header smallReport "ntfy" none 100 "daily"
    "2026-01-01 00:00:00" ⟨"W", 1, 50, [⟨"t", "S", "", 1, [1], 10, "", "", false⟩]⟩ []
    (by decide) (by decide) (by decide)

end TrendRadar
